import Mathlib

/-!
Shallow embedding of libwacom's descriptor database (src/libwacom/libwacom.c and
the database/parser translation unit): enum/string mappers, the sscanf-based
match-key parser, the tablet/stylus keyfile parsers, database construction,
the USB-id / product-name resolvers and the stylus accessors, together with
theorems settling the specification claims C1-C10.

Modelling conventions:
 - C strings that may be NULL are `Option String`; `g_strcmp0` is `Option` equality.
 - The GLib keyfile reader is the external capability the spec declares out of
   scope; it is modelled as a structure of typed getters (`KeyFile`).
 - `g_assert_not_reached` and undefined behaviour (passing NULL to `sscanf` or
   to `g_str_hash`) are explicit outcomes of the `LO` ("load outcome") type.
 - Machine integers are `Nat`/`Int` with explicit `% 2^32` where the C code
   stores into `uint32_t`.
-/

/-- WacomClass enum (libwacomint.h). -/
inductive WacomClass where
  | unknown | intuos3 | intuos4 | cintiq | bamboo | graphire
deriving DecidableEq, Repr

/-- WacomStylusType enum (libwacomint.h). -/
inductive WacomStylusType where
  | unknown | general | inking | airbrush | classic | marker
deriving DecidableEq, Repr

/-- WacomBusType enum (libwacomint.h). -/
inductive WacomBusType where
  | unknown | usb | serial | bluetooth
deriving DecidableEq, Repr

/-- Error codes surfaced through WacomError (libwacom.h). -/
inductive WacomErrorCode where
  | invalidPath | invalidDb | unknownModel
deriving DecidableEq, Repr

/-- Outcome of running a piece of C code that can assert or hit undefined
behaviour: `aborted` models `g_assert_not_reached`, `ub` models undefined
behaviour (NULL passed to `sscanf` / `g_str_hash`), `ok` is a normal return. -/
inductive LO (α : Type) where
  | aborted : LO α
  | ub : LO α
  | ok : α → LO α
deriving DecidableEq, Repr

/-- libwacom_model_string_to_enum: exact match over the five class names;
NULL or empty or anything else maps to WCLASS_UNKNOWN. -/
def libwacom_model_string_to_enum (model : Option String) : WacomClass :=
  match model with
  | none => .unknown
  | some s =>
    if s = "" then .unknown
    else if s = "Intuos3" then .intuos3
    else if s = "Intuos4" then .intuos4
    else if s = "Cintiq" then .cintiq
    else if s = "Bamboo" then .bamboo
    else if s = "Graphire" then .graphire
    else .unknown

/-- type_from_str: exact match over the five stylus type names; NULL or
anything else maps to WSTYLUS_UNKNOWN. -/
def type_from_str (type : Option String) : WacomStylusType :=
  match type with
  | none => .unknown
  | some s =>
    if s = "General" then .general
    else if s = "Inking" then .inking
    else if s = "Airbrush" then .airbrush
    else if s = "Classic" then .classic
    else if s = "Marker" then .marker
    else .unknown

/-- bus_from_str: exact match over "usb"/"serial"/"bluetooth", anything else
is WBUSTYPE_UNKNOWN (callers guarantee a non-NULL argument). -/
def bus_from_str (str : String) : WacomBusType :=
  if str = "usb" then .usb
  else if str = "serial" then .serial
  else if str = "bluetooth" then .bluetooth
  else .unknown

/-- bus_to_str: `none` models the `g_assert_not_reached()` branch for
WBUSTYPE_UNKNOWN; note that WBUSTYPE_SERIAL renders as "bluetooth". -/
def bus_to_str (bus : WacomBusType) : Option String :=
  match bus with
  | .unknown => none
  | .usb => some "usb"
  | .serial => some "bluetooth"
  | .bluetooth => some "bluetooth"

/-- ASCII whitespace as classified by isspace in the C locale, which scanf's
numeric conversions skip: space, \t, \n, \v, \f, \r. -/
def isSpaceC (c : Char) : Bool :=
  c.toNat = 32 || c.toNat = 9 || c.toNat = 10 || c.toNat = 11 || c.toNat = 12 || c.toNat = 13

/-- ASCII hexadecimal digit as classified by isxdigit: 0-9, a-f, A-F. -/
def isHexD (c : Char) : Bool :=
  (48 ≤ c.toNat && c.toNat ≤ 57) || (97 ≤ c.toNat && c.toNat ≤ 102) || (65 ≤ c.toNat && c.toNat ≤ 70)

/-- Numeric value of an ASCII hexadecimal digit. -/
def hexV (c : Char) : Nat :=
  if c.toNat ≤ 57 then c.toNat - 48
  else if c.toNat ≤ 70 then c.toNat - 65 + 10
  else c.toNat - 97 + 10

/-- Character test used by the scanset %[^:]: anything except a colon. -/
def notColon (c : Char) : Bool := !(c = ':')

/-- The `%63[^:]` conversion of sscanf: read at most 63 characters that are
not ':'; a matching failure if no character can be read. Returns the scanned
characters and the unconsumed remainder. -/
def scanBus (cs : List Char) : Option (List Char × List Char) :=
  let b := (cs.takeWhile notColon).take 63
  if b.isEmpty then none else some (b, cs.drop b.length)

/-- A literal ':' directive of sscanf: the next input character must be ':'. -/
def expectCln (cs : List Char) : Option (List Char) :=
  match cs with
  | c :: rest => if c = ':' then some rest else none
  | [] => none

/-- Strip an 0x/0X prefix from a strtoul-base-16 subject sequence; the prefix
is taken only when a hex digit follows it (longest-valid-prefix rule). -/
def drop0x (cs : List Char) : List Char :=
  match cs with
  | c0 :: c1 :: r =>
    if c0 = '0' ∧ (c1 = 'x' ∨ c1 = 'X') ∧ (r.head?.map isHexD).getD false then r
    else cs
  | _ => cs

/-- Value of a list of hex digits, most significant first. -/
def hexValue (ds : List Char) : Nat := ds.foldl (fun a c => 16 * a + hexV c) 0

/-- Body of a strtoul-base-16 subject sequence, after whitespace and sign:
an optional 0x/0X prefix and then at least one hex digit. Returns the value
and the unconsumed remainder. -/
def hexBody (cs : List Char) : Option (Nat × List Char) :=
  let cs' := drop0x cs
  let ds := cs'.takeWhile isHexD
  if ds.isEmpty then none
  else some (hexValue ds, cs'.drop ds.length)

/-- The `%x` conversion of sscanf: skip whitespace, then an optionally signed
hexadecimal integer in the format of strtoul with base 16, stored into a
uint32_t (value reduced mod 2^32, a '-' sign negating modulo 2^32). -/
def scanHex (cs : List Char) : Option (Nat × List Char) :=
  match cs.dropWhile isSpaceC with
  | [] => none
  | c :: r =>
    if c = '-' then (hexBody r).map (fun vr => ((2 ^ 32 - vr.1 % 2 ^ 32) % 2 ^ 32, vr.2))
    else if c = '+' then (hexBody r).map (fun vr => (vr.1 % 2 ^ 32, vr.2))
    else (hexBody (c :: r)).map (fun vr => (vr.1 % 2 ^ 32, vr.2))

/-- libwacom_matchstr_to_ints: `sscanf(match, "%63[^:]:%x:%x", busstr,
vendor_id, product_id)`; succeeds (returns 1 in C, `some` here) exactly when
all three conversions succeed, then maps the scanned bus string through
bus_from_str. Trailing input after the third conversion is not examined. -/
def libwacom_matchstr_to_ints (mstr : List Char) : Option (Nat × Nat × WacomBusType) :=
  match scanBus mstr with
  | none => none
  | some (bs, r1) =>
    match expectCln r1 with
    | none => none
    | some r2 =>
      match scanHex r2 with
      | none => none
      | some (v, r3) =>
        match expectCln r3 with
        | none => none
        | some r4 =>
          match scanHex r4 with
          | none => none
          | some (p, _) => some (v, p, bus_from_str (String.mk bs))

/-- Lowercase hexadecimal rendering of printf "%x". -/
def toHexStr (n : Nat) : String := String.mk (Nat.toDigits 16 n)

/-- The match-key formatter `g_strdup_printf("%s:0x%x:0x%x", bus, v, p)`. -/
def formatMatch (busStr : String) (v p : Nat) : String :=
  busStr ++ ":0x" ++ toHexStr v ++ ":0x" ++ toHexStr p

/-- strtol(s, NULL, 16): whitespace, optional sign, then the base-16 subject
sequence; returns 0 when no digits can be parsed. (Saturation at LONG_MAX on
overflow is not modelled; stylus ids are small.) -/
def strtol16 (cs : List Char) : Int :=
  let cs1 := cs.dropWhile isSpaceC
  match cs1 with
  | '-' :: r => match hexBody r with | some (v, _) => -(v : Int) | none => 0
  | '+' :: r => match hexBody r with | some (v, _) => (v : Int) | none => 0
  | _ => match hexBody cs1 with | some (v, _) => (v : Int) | none => 0

/-- ASCII decimal digit. -/
def isDecD (c : Char) : Bool := 48 ≤ c.toNat && c.toNat ≤ 57

/-- ASCII octal digit. -/
def isOctD (c : Char) : Bool := 48 ≤ c.toNat && c.toNat ≤ 55

/-- strtol(s, NULL, 0): base auto-detection (0x hex, leading 0 octal, else
decimal); returns 0 when no digits can be parsed. -/
def strtol0 (cs : List Char) : Int :=
  let cs1 := cs.dropWhile isSpaceC
  let sgn : Bool × List Char :=
    match cs1 with
    | '-' :: r => (true, r)
    | '+' :: r => (false, r)
    | _ => (false, cs1)
  let v : Nat :=
    match sgn.2 with
    | '0' :: 'x' :: r =>
      if (r.head?.map isHexD).getD false
      then (r.takeWhile isHexD).foldl (fun a c => 16 * a + hexV c) 0 else 0
    | '0' :: 'X' :: r =>
      if (r.head?.map isHexD).getD false
      then (r.takeWhile isHexD).foldl (fun a c => 16 * a + hexV c) 0 else 0
    | '0' :: r => (r.takeWhile isOctD).foldl (fun a c => 8 * a + (c.toNat - 48)) 0
    | r => (r.takeWhile isDecD).foldl (fun a c => 10 * a + (c.toNat - 48)) 0
  if sgn.1 then -(v : Int) else (v : Int)

/-- The external GLib keyfile capability, at the typed-getter level used by the
parsers. `getString` returns `none` for an absent key (NULL in C);
`getBoolean` returns false on absence or parse error (the parsers pass a NULL
GError); `getIntegerE` returns the value together with the
error-was-set flag (GLib returns 0 with the error set on absence or parse
failure); `getStringList` returns `none` for an absent key; `groups` is the
ordered group list of the file. -/
structure KeyFile where
  groups : List String
  getString : String → String → Option String
  getBoolean : String → String → Bool
  getIntegerE : String → String → Int × Bool
  getStringList : String → String → Option (List String)

/-- Feature bit FEATURE_STYLUS. -/
def FEATURE_STYLUS : Nat := 1
/-- Feature bit FEATURE_TOUCH. -/
def FEATURE_TOUCH : Nat := 2
/-- Feature bit FEATURE_RING. -/
def FEATURE_RING : Nat := 4
/-- Feature bit FEATURE_RING2. -/
def FEATURE_RING2 : Nat := 8
/-- Feature bit FEATURE_VSTRIP. -/
def FEATURE_VSTRIP : Nat := 16
/-- Feature bit FEATURE_HSTRIP. -/
def FEATURE_HSTRIP : Nat := 32
/-- Feature bit FEATURE_BUILTIN. -/
def FEATURE_BUILTIN : Nat := 64
/-- Feature bit FEATURE_REVERSIBLE. -/
def FEATURE_REVERSIBLE : Nat := 128

/-- WacomDevice record (libwacomint.h); `matchStr` is the `match` field (a
Lean keyword), NULL modelled as `none`. -/
structure WacomDevice where
  vendor : Option String
  product : Option String
  width : Int
  height : Int
  cls : WacomClass
  matchStr : Option String
  vendor_id : Nat
  product_id : Nat
  bus : WacomBusType
  features : Nat
  num_buttons : Int
  supported_styli : List Int
  num_styli : Nat
deriving DecidableEq, Repr

/-- The GENERIC_DEVICE_MATCH sentinel (libwacomint.h). -/
def GENERIC_DEVICE_MATCH : String := "generic"

/-- The DeviceMatch-handling block of libwacom_parse_tablet_keyfile: returns
the match key, vendor id, product id and bus stored into the device.
`g_strcmp0(match, "generic") == 0` keeps the sentinel verbatim; an absent
DeviceMatch (NULL) flows into `sscanf(NULL, ...)`, undefined behaviour; a
pattern failure leaves the match key NULL (only a DBG log); on success the key
is recomputed as `"%s:0x%x:0x%x"` via bus_to_str, whose WBUSTYPE_UNKNOWN
branch is `g_assert_not_reached()`. -/
def parseMatchInfo (dm : Option String) : LO (Option String × Nat × Nat × WacomBusType) :=
  if dm = some GENERIC_DEVICE_MATCH then .ok (dm, 0, 0, .unknown)
  else
    match dm with
    | none => .ub
    | some m =>
      match libwacom_matchstr_to_ints m.data with
      | none => .ok (none, 0, 0, .unknown)
      | some (v, p, bus) =>
        match bus_to_str bus with
        | none => .aborted
        | some s => .ok (some (formatMatch s v p), v, p, bus)

/-- libwacom_parse_tablet_keyfile: `none` input models a file that fails to
load as a keyfile (the function logs and returns NULL, modelled `.ok none`);
otherwise the WacomDevice is populated from the "Device" and "Features"
groups. Integer getters are called with a NULL GError, so the value component
of `getIntegerE` is used directly (GLib yields 0 there on failure). -/
def libwacom_parse_tablet_keyfile (file : Option KeyFile) : LO (Option WacomDevice) :=
  match file with
  | none => .ok none
  | some kf =>
    match parseMatchInfo (kf.getString "Device" "DeviceMatch") with
    | .aborted => .aborted
    | .ub => .ub
    | .ok (mk, v, p, bus) =>
      let styli := ((kf.getStringList "Device" "Styli").getD []).map (fun s => strtol0 s.data)
      let feats :=
        (if kf.getBoolean "Features" "Stylus" then FEATURE_STYLUS else 0) |||
        (if kf.getBoolean "Features" "Touch" then FEATURE_TOUCH else 0) |||
        (if kf.getBoolean "Features" "Ring" then FEATURE_RING else 0) |||
        (if kf.getBoolean "Features" "Ring2" then FEATURE_RING2 else 0) |||
        (if kf.getBoolean "Features" "VStrip" then FEATURE_VSTRIP else 0) |||
        (if kf.getBoolean "Features" "HStrip" then FEATURE_HSTRIP else 0) |||
        (if kf.getBoolean "Features" "BuiltIn" then FEATURE_BUILTIN else 0) |||
        (if kf.getBoolean "Features" "Reversible" then FEATURE_REVERSIBLE else 0)
      .ok (some {
        vendor := kf.getString "Device" "Vendor"
        product := kf.getString "Device" "Product"
        width := (kf.getIntegerE "Device" "Width").1
        height := (kf.getIntegerE "Device" "Height").1
        cls := libwacom_model_string_to_enum (kf.getString "Device" "Class")
        matchStr := mk
        vendor_id := v
        product_id := p
        bus := bus
        features := feats
        num_buttons := (kf.getIntegerE "Features" "Buttons").1
        supported_styli := styli
        num_styli := styli.length })

/-- WacomStylus record (libwacomint.h). -/
structure WacomStylus where
  id : Int
  name : Option String
  is_eraser : Bool
  has_eraser : Bool
  num_buttons : Int
  type : WacomStylusType
deriving DecidableEq, Repr

/-- The per-group body of libwacom_parse_stylus_keyfile: the group name is
parsed as a hexadecimal id with strtol base 16; id 0 means the group is
skipped with a warning (`none`). When IsEraser is false, an absent or
unparseable Buttons key (GLib returns 0 with the error set) is stored as the
-1 sentinel; when IsEraser is true, Buttons and HasEraser are forced to 0 and
false regardless of the file content. -/
def libwacom_parse_stylus_group (kf : KeyFile) (g : String) : Option WacomStylus :=
  let id := strtol16 g.data
  if id = 0 then none
  else
    let isEr := kf.getBoolean g "IsEraser"
    some {
      id := id
      name := kf.getString g "Name"
      is_eraser := isEr
      has_eraser := if isEr then false else kf.getBoolean g "HasEraser"
      num_buttons :=
        if isEr then 0
        else
          let vb := kf.getIntegerE g "Buttons"
          if vb.1 = 0 ∧ vb.2 then -1 else vb.1
      type := type_from_str (kf.getString g "Type") }

/-- The device hash table: string match key to device, newest insert first.
`g_hash_table_insert` replaces an existing entry with the same key. -/
abbrev DeviceTable : Type := List (String × WacomDevice)

/-- g_hash_table_insert with g_str_hash/g_str_equal keys: replaces any
existing entry with an equal key. -/
def hashInsertStr (t : DeviceTable) (k : String) (d : WacomDevice) : DeviceTable :=
  (k, d) :: List.filter (fun p => p.1 ≠ k) t

/-- g_hash_table_lookup with g_str_hash/g_str_equal keys. -/
def hashLookupStr (t : DeviceTable) (k : String) : Option WacomDevice :=
  (List.find? (fun p => p.1 = k) t).map (fun p => p.2)

/-- The values of the device table in iteration order
(g_hash_table_get_values; iteration order over a GLib hash table is
unspecified, the model uses the table list order). -/
def tableValues (t : DeviceTable) : List WacomDevice :=
  List.map (fun p => p.2) t

/-- scandir_filter: reject names starting with '.', require the length to
strictly exceed the length of the ".tablet" suffix, and require the name to
end with that suffix (strcmp of the last 7 characters). -/
def scandir_filter (name : String) : Bool :=
  match name.data with
  | [] => false
  | c :: _ =>
    !(c = '.') && name.data.length > 7 &&
      (name.data.drop (name.data.length - 7) = ".tablet".data)

/-- Lexicographic comparison of character lists by code point; on UTF-8 data
this coincides with strcmp byte order, since UTF-8 preserves code-point
order. -/
def charListLe : List Char → List Char → Bool
  | [], _ => true
  | _ :: _, [] => false
  | a :: as, b :: bs =>
    if a.toNat < b.toNat then true
    else if b.toNat < a.toNat then false
    else charListLe as bs

/-- String order used by alphasort (strcoll, byte order in the C locale). -/
def nameLe (a b : String) : Bool := charListLe a.data b.data

/-- Stable insertion into an alphabetically ascending list, by file name. -/
def insertSorted (f : String × Option KeyFile) :
    List (String × Option KeyFile) → List (String × Option KeyFile)
  | [] => [f]
  | g :: gs => if nameLe f.1 g.1 then f :: g :: gs else g :: insertSorted f gs

/-- Stable ascending sort by file name (insertion sort). -/
def sortByName : List (String × Option KeyFile) → List (String × Option KeyFile)
  | [] => []
  | f :: fs => insertSorted f (sortByName fs)

/-- The eligible descriptor files sorted alphabetically, as produced by
`scandir(DATADIR, &files, scandir_filter, alphasort)`. A directory is a list
of (file name, loadable keyfile content) pairs. -/
def sortedTabletFiles (files : List (String × Option KeyFile)) : List (String × Option KeyFile) :=
  sortByName (files.filter (fun f => scandir_filter f.1))

/-- One iteration of the load loop of libwacom_database_new: parse the file;
a NULL device (keyfile load failure) is skipped; otherwise the device is
inserted keyed by `g_strdup(d->match)` — when `d->match` is NULL the NULL key
reaches g_str_hash, undefined behaviour (`.ub`). -/
def loadDeviceStep (t : DeviceTable) (f : String × Option KeyFile) : LO DeviceTable :=
  match libwacom_parse_tablet_keyfile f.2 with
  | .aborted => .aborted
  | .ub => .ub
  | .ok none => .ok t
  | .ok (some d) =>
    match d.matchStr with
    | none => .ub
    | some m => .ok (hashInsertStr t m d)

/-- The load loop of libwacom_database_new, processing the given file list in
order. -/
def loadDevicesFrom : List (String × Option KeyFile) → DeviceTable → LO DeviceTable
  | [], t => .ok t
  | f :: fs, t =>
    match loadDeviceStep t f with
    | .aborted => .aborted
    | .ub => .ub
    | .ok t' => loadDevicesFrom fs t'

/-- The device-table construction of libwacom_database_new: scandir sorts the
eligible files alphabetically, but the `while(n--)` loop walks the sorted
array from the last index down, so the files are processed in reverse
alphabetical order. -/
def libwacom_database_new (files : List (String × Option KeyFile)) : LO DeviceTable :=
  loadDevicesFrom (sortedTabletFiles files).reverse []

/-- The WacomError cell: `none` before any `libwacom_error_set` call; a set
error carries the code and optional message. -/
abbrev ErrSt : Type := Option (WacomErrorCode × Option String)

/-- Modelled from the spec: `libwacom_error_set` lives in libwacom-error.c,
which is not part of the sources here; per the spec's error-handling design
("callers see ... a typed error with an optional descriptive message") it
assigns the given code and message to the error cell, overwriting any
previous content. -/
def libwacom_error_set (e : ErrSt) (code : WacomErrorCode) (msg : Option String) : ErrSt :=
  let _ := e
  some (code, msg)

/-- libwacom_copy: a deep copy duplicates every string and the styli array;
on the functional model all fields are copied by value. -/
def libwacom_copy (d : WacomDevice) : WacomDevice :=
  { vendor := d.vendor
    product := d.product
    width := d.width
    height := d.height
    matchStr := d.matchStr
    vendor_id := d.vendor_id
    product_id := d.product_id
    cls := d.cls
    bus := d.bus
    num_buttons := d.num_buttons
    supported_styli := d.supported_styli
    num_styli := d.num_styli
    features := d.features }

/-- libwacom_new: NULL db sets WERROR_INVALID_DB and returns NULL; otherwise
the canonical match key is formatted (bus_to_str would assert on an Unknown
bus) and looked up, the error untouched. -/
def libwacom_new (db : Option DeviceTable) (vendor_id product_id : Nat)
    (bus : WacomBusType) (e : ErrSt) : LO (Option WacomDevice × ErrSt) :=
  match db with
  | none => .ok (none, libwacom_error_set e .invalidDb (some "db is NULL"))
  | some t =>
    match bus_to_str bus with
    | none => .aborted
    | some s => .ok (hashLookupStr t (formatMatch s vendor_id product_id), e)

/-- libwacom_new_from_usbid: look up via libwacom_new with WBUSTYPE_USB; a
found device is returned as a copy, otherwise WERROR_UNKNOWN_MODEL is set
(overwriting whatever libwacom_new put in the error). -/
def libwacom_new_from_usbid (db : Option DeviceTable) (vendor_id product_id : Nat)
    (e : ErrSt) : LO (Option WacomDevice × ErrSt) :=
  match libwacom_new db vendor_id product_id .usb e with
  | .aborted => .aborted
  | .ub => .ub
  | .ok (some d, e') => .ok (some (libwacom_copy d), e')
  | .ok (none, e') => .ok (none, libwacom_error_set e' .unknownModel none)

/-- libwacom_new_from_name: NULL db sets WERROR_INVALID_DB; otherwise the
device-table values are scanned in iteration order for the first device whose
product compares equal to `name` under g_strcmp0 (two NULLs compare equal); a
match is returned as a copy, otherwise WERROR_UNKNOWN_MODEL is set. -/
def libwacom_new_from_name (db : Option DeviceTable) (name : Option String)
    (e : ErrSt) : Option WacomDevice × ErrSt :=
  match db with
  | none => (none, libwacom_error_set e .invalidDb (some "db is NULL"))
  | some t =>
    match List.find? (fun d => d.product = name) (tableValues t) with
    | some d => (some (libwacom_copy d), e)
    | none => (none, libwacom_error_set e .unknownModel none)

/-- libwacom_stylus_get_num_buttons: the -1 sentinel is replaced by the
default 2 (with a diagnostic warning in C); any other stored value is
returned as is. -/
def libwacom_stylus_get_num_buttons (stylus : WacomStylus) : Int :=
  if stylus.num_buttons = -1 then 2 else stylus.num_buttons

/-- libwacom_stylus_get_type accessor: an Unknown stored type is reported as
General (with a diagnostic warning in C). -/
def libwacom_stylus_get_type (stylus : WacomStylus) : WacomStylusType :=
  if stylus.type = .unknown then .general else stylus.type

/-- A minimal tablet keyfile fixture: a "Device" group carrying only Product
and DeviceMatch. -/
def mkTabletKf (product dm : String) : KeyFile :=
  { groups := []
    getString := fun g k =>
      if g = "Device" then
        if k = "Product" then some product
        else if k = "DeviceMatch" then some dm
        else none
      else none
    getBoolean := fun _ _ => false
    getIntegerE := fun _ _ => (0, true)
    getStringList := fun _ _ => none }

/-- Fixture: "a.tablet", DeviceMatch "usb:1:2", Product "A". -/
def kfTabA : KeyFile := mkTabletKf "A" "usb:1:2"

/-- Fixture: "b.tablet", same DeviceMatch "usb:1:2", Product "B". -/
def kfTabB : KeyFile := mkTabletKf "B" "usb:1:2"

/-- Fixture directory with two descriptor files carrying the same match key,
listed out of order to exercise the scandir sort. -/
def dirAB : List (String × Option KeyFile) :=
  [("b.tablet", some kfTabB), ("a.tablet", some kfTabA)]

/-- Fixture: a keyfile whose DeviceMatch "bogus" defeats the sscanf pattern,
leaving the match key NULL. -/
def kfTabBogus : KeyFile := mkTabletKf "X" "bogus"

/-- Fixture directory containing only the unparseable-DeviceMatch file. -/
def dirBogus : List (String × Option KeyFile) :=
  [("x.tablet", some kfTabBogus)]

/-- Fixture: a keyfile whose DeviceMatch "foo:1:2" satisfies the sscanf
pattern but carries a bus token outside the known vocabulary. -/
def kfTabFoo : KeyFile := mkTabletKf "F" "foo:1:2"

/-- A minimal stylus-catalog keyfile fixture: a single group "1a" with
conflicting IsEraser/HasEraser/Buttons settings. -/
def kfStylusEraser : KeyFile :=
  { groups := ["1a"]
    getString := fun g k =>
      if g = "1a" && k = "Name" then some "Test Eraser" else none
    getBoolean := fun g k =>
      if g = "1a" && (k = "IsEraser" || k = "HasEraser") then true else false
    getIntegerE := fun g k =>
      if g = "1a" && k = "Buttons" then ((5 : Int), false) else (0, true)
    getStringList := fun _ _ => none }

/-- Fixture device with an unset (NULL) product field. -/
def devNoProduct : WacomDevice :=
  { vendor := some "V"
    product := none
    width := 0
    height := 0
    cls := .unknown
    matchStr := some "usb:0x9:0x9"
    vendor_id := 9
    product_id := 9
    bus := .usb
    features := 0
    num_buttons := 0
    supported_styli := []
    num_styli := 0 }

/-- Fixture device with product "Named". -/
def devNamed : WacomDevice :=
  { vendor := some "V"
    product := some "Named"
    width := 0
    height := 0
    cls := .unknown
    matchStr := some "usb:0x8:0x8"
    vendor_id := 8
    product_id := 8
    bus := .usb
    features := 0
    num_buttons := 0
    supported_styli := []
    num_styli := 0 }

/-- Fixture table: a named device first, then one with a NULL product. -/
def tblC10 : DeviceTable :=
  [("usb:0x8:0x8", devNamed), ("usb:0x9:0x9", devNoProduct)]

/-- The device contributed by a directory entry under a given match key:
`some d` when the file parses cleanly into a device whose stored match key is
`k`. Used to state which entry survives in the table. -/
def parsedDeviceFor (k : String) (f : String × Option KeyFile) : Option WacomDevice :=
  match libwacom_parse_tablet_keyfile f.2 with
  | .ok (some d) => if d.matchStr = some k then some d else none
  | _ => none

/-- Split a character list at every colon (the field structure of the
match-key pattern; none of the three fields may contain a colon). -/
def splitColon : List Char → List (List Char)
  | [] => [[]]
  | ':' :: r => [] :: splitColon r
  | c :: r =>
    match splitColon r with
    | [] => [[c]]
    | g :: gs => (c :: g) :: gs

/-- A well-formed bus-name field of the match-key pattern: non-empty and at
most 63 characters (colon-freeness is forced by the split). -/
def busFieldB (b : List Char) : Bool := !b.isEmpty && b.length ≤ 63

/-- A well-formed hexadecimal field of the match-key pattern: a string fully
consumed by the %x scan conversion. -/
def hexFieldB (h : List Char) : Bool :=
  match scanHex h with
  | some (_, []) => true
  | _ => false

/-- The spec's reading of the match-key pattern as a FULL match: the entire
input decomposes as `<bus-name>:<hex-vendor>:<hex-product>` with nothing left
over. -/
def fullMatchPattern (cs : List Char) : Bool :=
  match splitColon cs with
  | [b, h1, h2] => busFieldB b && hexFieldB h1 && hexFieldB h2
  | _ => false

/-- Colon-free, non-empty, at-most-63-character bus-name field, as a
proposition over an arbitrary decomposition. -/
def busFieldOk (b : List Char) : Prop :=
  b ≠ [] ∧ b.length ≤ 63 ∧ ∀ c ∈ b, c ≠ ':'

/-- A prefix of the input matches the `<bus-name>:<hex-vendor>:<hex-product>`
pattern; characters after the product field are unconstrained. -/
def prefixMatchPattern (cs : List Char) : Prop :=
  ∃ b h1 h2 rest, cs = b ++ ':' :: (h1 ++ ':' :: (h2 ++ rest)) ∧
    busFieldOk b ∧ hexFieldB h1 = true ∧ hexFieldB h2 = true

/-- Fixture directory containing only a.tablet. -/
def dirA : List (String × Option KeyFile) :=
  [("a.tablet", some kfTabA)]

/-- The device parsed from kfTabA (DeviceMatch "usb:1:2", Product "A"). -/
def devA : WacomDevice :=
  { vendor := none
    product := some "A"
    width := 0
    height := 0
    cls := .unknown
    matchStr := some "usb:0x1:0x2"
    vendor_id := 1
    product_id := 2
    bus := .usb
    features := 0
    num_buttons := 0
    supported_styli := []
    num_styli := 0 }

/-- Fixture stylus storing the -1 "undefined" button-count sentinel. -/
def stylusSentinel : WacomStylus :=
  { id := 1
    name := none
    is_eraser := false
    has_eraser := false
    num_buttons := -1
    type := .general }

/-- Fixture stylus storing a defined button count. -/
def stylusThreeButtons : WacomStylus :=
  { id := 2
    name := none
    is_eraser := false
    has_eraser := true
    num_buttons := 3
    type := .general }

/-- The stylus record built from the kfStylusEraser fixture group "1a". -/
def stylusEr : WacomStylus :=
  { id := 26
    name := some "Test Eraser"
    is_eraser := true
    has_eraser := false
    num_buttons := 0
    type := .unknown }

/-- takeWhile over an append whose left part satisfies the predicate
throughout. -/
theorem takeWhile_append_all {p : Char → Bool} {l : List Char} (r : List Char)
    (h : ∀ c ∈ l, p c = true) :
    (l ++ r).takeWhile p = l ++ r.takeWhile p := by
  induction l with
  | nil => simp
  | cons x xs ih =>
    have hx : p x = true := h x (by simp)
    simp only [List.cons_append, List.takeWhile_cons, hx, if_true]
    rw [ih (fun c hc => h c (by simp [hc]))]

/-- dropWhile over an append, split on whether the left part is consumed
entirely. -/
theorem dropWhile_append_split {p : Char → Bool} (l r : List Char) :
    (l ++ r).dropWhile p =
      if (l.dropWhile p).isEmpty then r.dropWhile p else l.dropWhile p ++ r := by
  induction l with
  | nil => simp
  | cons x xs ih =>
    by_cases hx : p x = true
    · simp only [List.cons_append, List.dropWhile_cons, hx, if_true, ih]
    · simp only [List.cons_append, List.dropWhile_cons, hx]
      simp

/-- dropWhile consumes nothing when the head fails the predicate. -/
theorem dropWhile_cons_neg {p : Char → Bool} {x : Char} (xs : List Char)
    (h : p x = false) : (x :: xs).dropWhile p = x :: xs := by
  simp [List.dropWhile_cons, h]

/-- dropWhile consumes everything when every element satisfies the
predicate. -/
theorem dropWhile_eq_nil_of_all {p : Char → Bool} {l : List Char}
    (h : ∀ c ∈ l, p c = true) : l.dropWhile p = [] := by
  induction l with
  | nil => simp
  | cons x xs ih =>
    simp only [List.dropWhile_cons, h x (by simp), if_true]
    exact ih (fun c hc => h c (by simp [hc]))

/-- takeWhile keeps everything when every element satisfies the predicate. -/
theorem takeWhile_eq_self_of_all {p : Char → Bool} {l : List Char}
    (h : ∀ c ∈ l, p c = true) : l.takeWhile p = l := by
  induction l with
  | nil => simp
  | cons x xs ih =>
    simp only [List.takeWhile_cons, h x (by simp), if_true]
    rw [ih (fun c hc => h c (by simp [hc]))]

/-- Dropping the length of the takeWhile prefix is dropWhile. -/
theorem drop_takeWhile_length {p : Char → Bool} (l : List Char) :
    l.drop (l.takeWhile p).length = l.dropWhile p := by
  induction l with
  | nil => simp
  | cons x xs ih =>
    by_cases hx : p x = true
    · simp [List.takeWhile_cons, List.dropWhile_cons, hx, ih]
    · simp [List.takeWhile_cons, List.dropWhile_cons, hx]

/-- The head of a non-empty dropWhile result fails the predicate. -/
theorem dropWhile_head_not {p : Char → Bool} {l : List Char} {c : Char}
    {r : List Char} (h : l.dropWhile p = c :: r) : p c = false := by
  induction l with
  | nil => simp at h
  | cons x xs ih =>
    by_cases hx : p x = true
    · rw [List.dropWhile_cons, if_pos hx] at h
      exact ih h
    · rw [List.dropWhile_cons, if_neg hx] at h
      cases h
      exact Bool.eq_false_iff.mpr hx

/-- scanBus on a well-formed bus field followed by a colon scans exactly the
field. -/
theorem scanBus_append {b : List Char} (r : List Char) (hne : b ≠ [])
    (hlen : b.length ≤ 63) (hnc : ∀ c ∈ b, c ≠ ':') :
    scanBus (b ++ ':' :: r) = some (b, ':' :: r) := by
  have hall : ∀ c ∈ b, notColon c = true := by
    intro c hc
    simp [notColon, hnc c hc]
  have htw : (b ++ ':' :: r).takeWhile notColon = b := by
    rw [takeWhile_append_all (':' :: r) hall]
    simp [List.takeWhile_cons, notColon]
  unfold scanBus
  rw [htw, List.take_of_length_le hlen]
  simp only [List.isEmpty_iff, hne, if_false, List.drop_left]

/-- scanBus success yields a prefix decomposition with a non-empty, at most
63-character, colon-free scanned field. -/
theorem scanBus_sound {cs b rest : List Char}
    (h : scanBus cs = some (b, rest)) :
    cs = b ++ rest ∧ b ≠ [] ∧ b.length ≤ 63 ∧ ∀ c ∈ b, c ≠ ':' := by
  unfold scanBus at h
  by_cases he : ((cs.takeWhile notColon).take 63).isEmpty
  · rw [if_pos he] at h
    exact absurd h (by simp)
  · rw [if_neg he] at h
    simp only [Option.some.injEq, Prod.mk.injEq] at h
    obtain ⟨hb, hrest⟩ := h
    have hpre : b <+: cs := by
      rw [← hb]
      exact (List.take_prefix 63 (cs.takeWhile notColon)).trans (List.takeWhile_prefix notColon)
    obtain ⟨t, ht⟩ := hpre
    rw [hb] at hrest
    have hdrop : cs.drop b.length = t := by
      rw [← ht, List.drop_left]
    refine ⟨by rw [← ht, ← hdrop, hrest], ?_, ?_, ?_⟩
    · intro hnil
      rw [hb, hnil] at he
      simp at he
    · rw [← hb]
      exact List.length_take_le 63 (cs.takeWhile notColon)
    · intro c hc
      rw [← hb] at hc
      have hmem : c ∈ cs.takeWhile notColon := List.take_subset 63 _ hc
      have := List.mem_takeWhile_imp hmem
      simpa [notColon] using this

/-- Case analysis for drop0x: either it is the identity, or the list starts
with an 0x/0X prefix followed by a hex digit and the prefix is dropped. -/
theorem drop0x_cases (cs : List Char) :
    drop0x cs = cs ∨
    ∃ c1 r, cs = '0' :: c1 :: r ∧ (c1 = 'x' ∨ c1 = 'X') ∧
      (r.head?.map isHexD).getD false = true ∧ drop0x cs = r := by
  match cs with
  | [] => exact Or.inl rfl
  | [c] => exact Or.inl rfl
  | c0 :: c1 :: r =>
    by_cases hc : c0 = '0' ∧ (c1 = 'x' ∨ c1 = 'X') ∧ (r.head?.map isHexD).getD false = true
    · refine Or.inr ⟨c1, r, ?_, hc.2.1, hc.2.2, ?_⟩
      · rw [hc.1]
      · simp only [drop0x, if_pos hc]
    · left
      simp only [drop0x, if_neg hc]

/-- drop0x is the identity on a list of hex digits ('x'/'X' are not hex
digits). -/
theorem drop0x_of_all_hex {l : List Char} (h : ∀ c ∈ l, isHexD c = true) :
    drop0x l = l := by
  match l with
  | [] => rfl
  | [c] => rfl
  | c0 :: c1 :: r =>
    have h1 : isHexD c1 = true := h c1 (by simp)
    have : ¬(c0 = '0' ∧ (c1 = 'x' ∨ c1 = 'X') ∧ ((r.head?.map isHexD).getD false) = true) := by
      rintro ⟨-, hx, -⟩
      rcases hx with rfl | rfl
      · exact absurd h1 (by decide)
      · exact absurd h1 (by decide)
    simp only [drop0x, if_neg this]

/-- hexBody on a list of hex digits consumes all of it. -/
theorem hexBody_all_hex {ds : List Char} (hne : ds ≠ [])
    (h : ∀ c ∈ ds, isHexD c = true) :
    hexBody ds = some (hexValue ds, []) := by
  simp only [hexBody, drop0x_of_all_hex h, takeWhile_eq_self_of_all h]
  rw [if_neg (by simpa using hne)]
  rw [List.drop_length]

/-- hexBody success yields a prefix decomposition whose consumed part is
itself a complete hexBody subject sequence with the same value. -/
theorem hexBody_decomp {cs : List Char} {v : Nat} {rest : List Char}
    (h : hexBody cs = some (v, rest)) :
    ∃ b, cs = b ++ rest ∧ hexBody b = some (v, []) := by
  rcases drop0x_cases cs with hid | ⟨c1, r, hcs, hx, hhd, hdr⟩
  · unfold hexBody at h
    rw [hid] at h
    by_cases he : (cs.takeWhile isHexD).isEmpty
    · rw [if_pos he] at h
      exact absurd h (by simp)
    · rw [if_neg he] at h
      simp only [Option.some.injEq, Prod.mk.injEq] at h
      obtain ⟨hv, hrest⟩ := h
      have hall : ∀ c ∈ cs.takeWhile isHexD, isHexD c = true :=
        fun c hc => List.mem_takeWhile_imp hc
      have hne : cs.takeWhile isHexD ≠ [] := by simpa using he
      refine ⟨cs.takeWhile isHexD, ?_, ?_⟩
      · rw [← hrest, drop_takeWhile_length, List.takeWhile_append_dropWhile]
      · rw [hexBody_all_hex hne hall, hv]
  · unfold hexBody at h
    rw [hdr] at h
    obtain ⟨d, r', rfl⟩ : ∃ d r', r = d :: r' := by
      cases r with
      | nil => simp at hhd
      | cons d r' => exact ⟨d, r', rfl⟩
    have hd : isHexD d = true := by simpa using hhd
    by_cases he : ((d :: r').takeWhile isHexD).isEmpty
    · rw [List.takeWhile_cons, if_pos hd] at he
      simp at he
    · rw [if_neg he] at h
      simp only [Option.some.injEq, Prod.mk.injEq] at h
      obtain ⟨hv, hrest⟩ := h
      have hall : ∀ c ∈ (d :: r').takeWhile isHexD, isHexD c = true :=
        fun c hc => List.mem_takeWhile_imp hc
      have hne : (d :: r').takeWhile isHexD ≠ [] := by simpa using he
      refine ⟨'0' :: c1 :: (d :: r').takeWhile isHexD, ?_, ?_⟩
      · rw [hcs, ← hrest, drop_takeWhile_length]
        simp [List.takeWhile_append_dropWhile]
      · have hdsne : ((d :: r').takeWhile isHexD).head?.map isHexD ≠ none := by
          cases hcase : ((d :: r').takeWhile isHexD) with
          | nil => exact absurd hcase hne
          | cons a as => simp
        have hdr0 : drop0x ('0' :: c1 :: (d :: r').takeWhile isHexD) = (d :: r').takeWhile isHexD := by
          simp only [drop0x]
          rw [if_pos]
          refine ⟨by trivial, hx, ?_⟩
          cases hcase : ((d :: r').takeWhile isHexD) with
          | nil => exact absurd hcase hne
          | cons a as =>
            have ha : isHexD a = true := hall a (by rw [hcase]; simp)
            simp [hcase, ha]
        simp only [hexBody, hdr0, takeWhile_eq_self_of_all hall]
        rw [if_neg (by simpa using hne)]
        rw [List.drop_length, hv]

/-- Evaluate hexBody when drop0x exposes a hex-digit run followed by a
remainder that does not start with a hex digit. -/
theorem hexBody_eval_of_drop0x {cs ds rest : List Char}
    (hdr : drop0x cs = ds ++ rest) (hall : ∀ c ∈ ds, isHexD c = true)
    (hne : ds ≠ [])
    (hstop : rest = [] ∨ ∃ rh rt, rest = rh :: rt ∧ isHexD rh = false) :
    hexBody cs = some (hexValue ds, rest) := by
  have htw : (ds ++ rest).takeWhile isHexD = ds := by
    rw [takeWhile_append_all rest hall]
    rcases hstop with rfl | ⟨rh, rt, rfl, hrh⟩
    · simp
    · rw [List.takeWhile_cons, if_neg (by simp [hrh])]
      simp
  simp only [hexBody, hdr, htw]
  rw [if_neg (by simpa using hne)]
  rw [List.drop_left]

/-- drop0x is the identity on a non-empty hex-digit run followed by a colon
and anything. -/
theorem drop0x_hexlist_colon {ds : List Char} (t : List Char)
    (hall : ∀ c ∈ ds, isHexD c = true) (hne : ds ≠ []) :
    drop0x (ds ++ ':' :: t) = ds ++ ':' :: t := by
  match ds, hne with
  | [d], _ =>
    simp only [List.cons_append, List.nil_append, drop0x]
    rw [if_neg]
    rintro ⟨-, hx, -⟩
    rcases hx with h | h
    · exact absurd h (by decide)
    · exact absurd h (by decide)
  | d0 :: d1 :: ds', _ =>
    have h1 : isHexD d1 = true := hall d1 (by simp)
    simp only [List.cons_append, drop0x]
    rw [if_neg]
    rintro ⟨-, hx, -⟩
    rcases hx with rfl | rfl
    · exact absurd h1 (by decide)
    · exact absurd h1 (by decide)

/-- A complete hexBody subject sequence decomposes as an optional 0x/0X
prefix followed by a non-empty all-hex digit run carrying the value. -/
theorem hexBody_closed_elim {b : List Char} {v : Nat}
    (h : hexBody b = some (v, [])) :
    ∃ pre ds, b = pre ++ ds ∧
      (pre = [] ∨ ∃ c1, pre = ['0', c1] ∧ (c1 = 'x' ∨ c1 = 'X')) ∧
      ds ≠ [] ∧ (∀ c ∈ ds, isHexD c = true) ∧ v = hexValue ds := by
  rcases drop0x_cases b with hid | ⟨c1, r, hcs, hx, hhd, hdr⟩
  · simp only [hexBody, hid] at h
    by_cases he : (b.takeWhile isHexD).isEmpty
    · rw [if_pos he] at h
      exact absurd h (by simp)
    · rw [if_neg he] at h
      simp only [Option.some.injEq, Prod.mk.injEq] at h
      obtain ⟨hv, hrest⟩ := h
      have hdw : b.dropWhile isHexD = [] := by
        rw [← drop_takeWhile_length, hrest]
      have hb : b.takeWhile isHexD = b := by
        conv_rhs => rw [← List.takeWhile_append_dropWhile isHexD b]
        rw [hdw, List.append_nil]
      refine ⟨[], b, by simp, Or.inl rfl, ?_, ?_, ?_⟩
      · intro hnil
        rw [hb, hnil] at he
        simp at he
      · intro c hc
        rw [← hb] at hc
        exact List.mem_takeWhile_imp hc
      · rw [← hv, hb]
  · simp only [hexBody, hdr] at h
    by_cases he : (r.takeWhile isHexD).isEmpty
    · rw [if_pos he] at h
      exact absurd h (by simp)
    · rw [if_neg he] at h
      simp only [Option.some.injEq, Prod.mk.injEq] at h
      obtain ⟨hv, hrest⟩ := h
      have hdw : r.dropWhile isHexD = [] := by
        rw [← drop_takeWhile_length, hrest]
      have hr : r.takeWhile isHexD = r := by
        conv_rhs => rw [← List.takeWhile_append_dropWhile isHexD r]
        rw [hdw, List.append_nil]
      refine ⟨['0', c1], r, by simp [hcs], Or.inr ⟨c1, rfl, hx⟩, ?_, ?_, ?_⟩
      · intro hnil
        rw [hr, hnil] at he
        simp at he
      · intro c hc
        rw [← hr] at hc
        exact List.mem_takeWhile_imp hc
      · rw [← hv, hr]

/-- hexBody extended by a colon and arbitrary text consumes the same subject
sequence, leaving the colon unconsumed. -/
theorem hexBody_colon {b : List Char} {v : Nat} (t : List Char)
    (h : hexBody b = some (v, [])) :
    hexBody (b ++ ':' :: t) = some (v, ':' :: t) := by
  obtain ⟨pre, ds, rfl, hpre, hne, hall, hv⟩ := hexBody_closed_elim h
  have hstop : (':' :: t : List Char) = [] ∨
      ∃ rh rt, (':' :: t : List Char) = rh :: rt ∧ isHexD rh = false :=
    Or.inr ⟨':', t, rfl, by decide⟩
  rcases hpre with rfl | ⟨c1, rfl, hx⟩
  · rw [hv]
    exact hexBody_eval_of_drop0x (drop0x_hexlist_colon t hall hne) hall hne hstop
  · obtain ⟨d, ds', rfl⟩ : ∃ d ds', ds = d :: ds' := by
      cases ds with
      | nil => exact absurd rfl hne
      | cons d ds' => exact ⟨d, ds', rfl⟩
    have hd : isHexD d = true := hall d (by simp)
    have hdr : drop0x (('0' :: c1 :: (d :: ds')) ++ ':' :: t) = (d :: ds') ++ ':' :: t := by
      simp only [List.cons_append, drop0x]
      rw [if_pos]
      exact ⟨by trivial, hx, by simp [hd]⟩
    rw [hv]
    have hres : hexBody (('0' :: c1 :: (d :: ds')) ++ ':' :: t) =
        some (hexValue (d :: ds'), ':' :: t) :=
      hexBody_eval_of_drop0x hdr hall hne hstop
    simpa using hres

/-- hexBody succeeds whenever drop0x exposes a leading hex digit. -/
theorem hexBody_isSome_of_head_hex {cs : List Char} {d : Char} {r2 : List Char}
    (hdr : drop0x cs = d :: r2) (hd : isHexD d = true) :
    (hexBody cs).isSome = true := by
  simp only [hexBody, hdr, List.takeWhile_cons, hd, if_true]
  rw [if_neg (by simp)]
  simp

/-- hexBody extended by arbitrary text still succeeds. -/
theorem hexBody_append_isSome {b : List Char} {v : Nat} (r : List Char)
    (h : hexBody b = some (v, [])) :
    (hexBody (b ++ r)).isSome = true := by
  obtain ⟨pre, ds, rfl, hpre, hne, hall, hv⟩ := hexBody_closed_elim h
  obtain ⟨d, ds', rfl⟩ : ∃ d ds', ds = d :: ds' := by
    cases ds with
    | nil => exact absurd rfl hne
    | cons d ds' => exact ⟨d, ds', rfl⟩
  have hd : isHexD d = true := hall d (by simp)
  rcases hpre with rfl | ⟨c1, rfl, hx⟩
  · rcases drop0x_cases (([] ++ (d :: ds')) ++ r) with hid | ⟨e1, rr, hcs, hex, hhd, hdr⟩
    · refine hexBody_isSome_of_head_hex (show drop0x (([] ++ (d :: ds')) ++ r) = d :: (ds' ++ r) from ?_) hd
      rw [hid]
      simp
    · obtain ⟨e, rr', rfl⟩ : ∃ e rr', rr = e :: rr' := by
        cases rr with
        | nil => simp at hhd
        | cons e rr' => exact ⟨e, rr', rfl⟩
      have he : isHexD e = true := by simpa using hhd
      exact hexBody_isSome_of_head_hex hdr he
  · have hdr : drop0x (('0' :: c1 :: (d :: ds')) ++ r) = d :: (ds' ++ r) := by
      simp only [List.cons_append, drop0x]
      rw [if_pos]
      exact ⟨by trivial, hx, by simp [hd]⟩
    exact hexBody_isSome_of_head_hex hdr hd

/-- scanHex success yields a prefix decomposition whose consumed part is a
complete scanHex subject with the same value. -/
theorem scanHex_decomp {cs : List Char} {v : Nat} {rest : List Char}
    (h : scanHex cs = some (v, rest)) :
    ∃ hh, cs = hh ++ rest ∧ scanHex hh = some (v, []) := by
  have hsplit : cs = cs.takeWhile isSpaceC ++ cs.dropWhile isSpaceC :=
    (List.takeWhile_append_dropWhile isSpaceC cs).symm
  have hwnil : (cs.takeWhile isSpaceC).dropWhile isSpaceC = [] :=
    dropWhile_eq_nil_of_all (fun c hc => List.mem_takeWhile_imp hc)
  cases hcs1 : cs.dropWhile isSpaceC with
  | nil =>
    simp only [scanHex, hcs1] at h
    exact absurd h (by simp)
  | cons c r =>
    have hcns : isSpaceC c = false := dropWhile_head_not hcs1
    simp only [scanHex, hcs1] at h
    by_cases hminus : c = '-'
    · rw [if_pos hminus] at h
      cases hhb : hexBody r with
      | none => rw [hhb] at h; exact absurd h (by simp)
      | some vr =>
        rw [hhb] at h
        injection h with h'
        have hv : v = (2 ^ 32 - vr.1 % 2 ^ 32) % 2 ^ 32 := (congrArg Prod.fst h').symm
        have hrest : vr.2 = rest := congrArg Prod.snd h'
        obtain ⟨b, hrb, hb⟩ :=
          hexBody_decomp (show hexBody r = some (vr.1, rest) by rw [hhb, ← hrest])
        refine ⟨cs.takeWhile isSpaceC ++ c :: b, ?_, ?_⟩
        · conv_lhs => rw [hsplit, hcs1, hrb]
          simp
        · have hdw : (cs.takeWhile isSpaceC ++ c :: b).dropWhile isSpaceC = c :: b := by
            rw [dropWhile_append_split, hwnil]
            simp only [List.isEmpty_nil, if_true]
            exact dropWhile_cons_neg b hcns
          simp only [scanHex, hdw]
          rw [if_pos hminus, hb]
          simp [hv]
    · by_cases hplus : c = '+'
      · rw [if_neg hminus, if_pos hplus] at h
        cases hhb : hexBody r with
        | none => rw [hhb] at h; exact absurd h (by simp)
        | some vr =>
          rw [hhb] at h
          injection h with h'
          have hv : v = vr.1 % 2 ^ 32 := (congrArg Prod.fst h').symm
          have hrest : vr.2 = rest := congrArg Prod.snd h'
          obtain ⟨b, hrb, hb⟩ :=
            hexBody_decomp (show hexBody r = some (vr.1, rest) by rw [hhb, ← hrest])
          refine ⟨cs.takeWhile isSpaceC ++ c :: b, ?_, ?_⟩
          · conv_lhs => rw [hsplit, hcs1, hrb]
            simp
          · have hdw : (cs.takeWhile isSpaceC ++ c :: b).dropWhile isSpaceC = c :: b := by
              rw [dropWhile_append_split, hwnil]
              simp only [List.isEmpty_nil, if_true]
              exact dropWhile_cons_neg b hcns
            simp only [scanHex, hdw]
            rw [if_neg hminus, if_pos hplus, hb]
            simp [hv]
      · rw [if_neg hminus, if_neg hplus] at h
        cases hhb : hexBody (c :: r) with
        | none => rw [hhb] at h; exact absurd h (by simp)
        | some vr =>
          rw [hhb] at h
          injection h with h'
          have hv : v = vr.1 % 2 ^ 32 := (congrArg Prod.fst h').symm
          have hrest : vr.2 = rest := congrArg Prod.snd h'
          obtain ⟨b, hrb, hb⟩ :=
            hexBody_decomp (show hexBody (c :: r) = some (vr.1, rest) by rw [hhb, ← hrest])
          have hbne : b ≠ [] := by
            intro hnil
            rw [hnil] at hb
            exact absurd hb (by simp [hexBody, drop0x])
          obtain ⟨b0, b', rfl⟩ : ∃ b0 b', b = b0 :: b' := by
            cases b with
            | nil => exact absurd rfl hbne
            | cons b0 b' => exact ⟨b0, b', rfl⟩
          have hb0 : b0 = c := by
            have hinj := hrb
            rw [List.cons_append] at hinj
            injection hinj with hinj1 hinj2
            exact hinj1.symm
          subst hb0
          refine ⟨cs.takeWhile isSpaceC ++ b0 :: b', ?_, ?_⟩
          · conv_lhs => rw [hsplit, hcs1, hrb]
            simp
          · have hdw : (cs.takeWhile isSpaceC ++ b0 :: b').dropWhile isSpaceC = b0 :: b' := by
              rw [dropWhile_append_split, hwnil]
              simp only [List.isEmpty_nil, if_true]
              exact dropWhile_cons_neg b' hcns
            simp only [scanHex, hdw]
            rw [if_neg hminus, if_neg hplus, hb]
            simp [hv]

/-- scanHex extended by a colon and arbitrary text consumes the same subject
sequence, leaving the colon unconsumed. -/
theorem scanHex_colon {hh : List Char} {v : Nat} (t : List Char)
    (h : scanHex hh = some (v, [])) :
    scanHex (hh ++ ':' :: t) = some (v, ':' :: t) := by
  cases hcs1 : hh.dropWhile isSpaceC with
  | nil =>
    simp only [scanHex, hcs1] at h
    exact absurd h (by simp)
  | cons c r =>
    simp only [scanHex, hcs1] at h
    have hdw : (hh ++ ':' :: t).dropWhile isSpaceC = c :: (r ++ ':' :: t) := by
      rw [dropWhile_append_split, hcs1]
      simp
    simp only [scanHex, hdw]
    by_cases hminus : c = '-'
    · rw [if_pos hminus] at h ⊢
      cases hhb : hexBody r with
      | none => rw [hhb] at h; exact absurd h (by simp)
      | some vr =>
        rw [hhb] at h
        injection h with h'
        have hv : v = (2 ^ 32 - vr.1 % 2 ^ 32) % 2 ^ 32 := (congrArg Prod.fst h').symm
        have hrest : vr.2 = [] := congrArg Prod.snd h'
        have hb : hexBody r = some (vr.1, []) := by rw [hhb, ← hrest]
        rw [hexBody_colon t hb]
        simp [hv]
    · by_cases hplus : c = '+'
      · rw [if_neg hminus, if_pos hplus] at h ⊢
        cases hhb : hexBody r with
        | none => rw [hhb] at h; exact absurd h (by simp)
        | some vr =>
          rw [hhb] at h
          injection h with h'
          have hv : v = vr.1 % 2 ^ 32 := (congrArg Prod.fst h').symm
          have hrest : vr.2 = [] := congrArg Prod.snd h'
          have hb : hexBody r = some (vr.1, []) := by rw [hhb, ← hrest]
          rw [hexBody_colon t hb]
          simp [hv]
      · rw [if_neg hminus, if_neg hplus] at h ⊢
        cases hhb : hexBody (c :: r) with
        | none => rw [hhb] at h; exact absurd h (by simp)
        | some vr =>
          rw [hhb] at h
          injection h with h'
          have hv : v = vr.1 % 2 ^ 32 := (congrArg Prod.fst h').symm
          have hrest : vr.2 = [] := congrArg Prod.snd h'
          have hb : hexBody (c :: r) = some (vr.1, []) := by rw [hhb, ← hrest]
          rw [show c :: (r ++ ':' :: t) = (c :: r) ++ ':' :: t from rfl, hexBody_colon t hb]
          simp [hv]

/-- scanHex extended by arbitrary text still succeeds. -/
theorem scanHex_append_isSome {hh : List Char} {v : Nat} (x : List Char)
    (h : scanHex hh = some (v, [])) :
    (scanHex (hh ++ x)).isSome = true := by
  cases hcs1 : hh.dropWhile isSpaceC with
  | nil =>
    simp only [scanHex, hcs1] at h
    exact absurd h (by simp)
  | cons c r =>
    simp only [scanHex, hcs1] at h
    have hdw : (hh ++ x).dropWhile isSpaceC = c :: (r ++ x) := by
      rw [dropWhile_append_split, hcs1]
      simp
    simp only [scanHex, hdw]
    by_cases hminus : c = '-'
    · rw [if_pos hminus] at h ⊢
      cases hhb : hexBody r with
      | none => rw [hhb] at h; exact absurd h (by simp)
      | some vr =>
        rw [hhb] at h
        injection h with h'
        have hrest : vr.2 = [] := congrArg Prod.snd h'
        have hb : hexBody r = some (vr.1, []) := by rw [hhb, ← hrest]
        obtain ⟨vv, hvv⟩ := Option.isSome_iff_exists.mp (hexBody_append_isSome x hb)
        rw [hvv]
        simp
    · by_cases hplus : c = '+'
      · rw [if_neg hminus, if_pos hplus] at h ⊢
        cases hhb : hexBody r with
        | none => rw [hhb] at h; exact absurd h (by simp)
        | some vr =>
          rw [hhb] at h
          injection h with h'
          have hrest : vr.2 = [] := congrArg Prod.snd h'
          have hb : hexBody r = some (vr.1, []) := by rw [hhb, ← hrest]
          obtain ⟨vv, hvv⟩ := Option.isSome_iff_exists.mp (hexBody_append_isSome x hb)
          rw [hvv]
          simp
      · rw [if_neg hminus, if_neg hplus] at h ⊢
        cases hhb : hexBody (c :: r) with
        | none => rw [hhb] at h; exact absurd h (by simp)
        | some vr =>
          rw [hhb] at h
          injection h with h'
          have hrest : vr.2 = [] := congrArg Prod.snd h'
          have hb : hexBody (c :: r) = some (vr.1, []) := by rw [hhb, ← hrest]
          obtain ⟨vv, hvv⟩ := Option.isSome_iff_exists.mp (hexBody_append_isSome x hb)
          rw [show c :: (r ++ x) = (c :: r) ++ x from rfl, hvv]
          simp

/-- expectCln succeeds exactly on a leading colon. -/
theorem expectCln_eq_some {cs r : List Char} (h : expectCln cs = some r) :
    cs = ':' :: r := by
  cases cs with
  | nil => simp [expectCln] at h
  | cons c rest =>
    simp only [expectCln] at h
    by_cases hc : c = ':'
    · rw [if_pos hc] at h
      injection h with h'
      rw [hc, h']
    · rw [if_neg hc] at h
      exact absurd h (by simp)

/-- A true hexFieldB certificate is a complete scanHex run. -/
theorem hexFieldB_elim {h : List Char} (hf : hexFieldB h = true) :
    ∃ v, scanHex h = some (v, []) := by
  unfold hexFieldB at hf
  cases hsc : scanHex h with
  | none => rw [hsc] at hf; simp at hf
  | some vr =>
    rw [hsc] at hf
    cases vr with
    | mk v rest =>
      cases rest with
      | nil => exact ⟨v, rfl⟩
      | cons a as => simp at hf

/-- A complete scanHex run certifies hexFieldB. -/
theorem hexFieldB_intro {h : List Char} {v : Nat}
    (hsc : scanHex h = some (v, [])) : hexFieldB h = true := by
  unfold hexFieldB
  rw [hsc]

/-- expectCln consumes a leading colon. -/
theorem expectCln_cons (x : List Char) : expectCln (':' :: x) = some x := by
  simp [expectCln]

/-- Claim C9 (amended): the match-key scanner succeeds exactly when a PREFIX
of the input matches the `<bus-name>:<hex-vendor>:<hex-product>` pattern;
input after the product field is ignored, not rejected. -/
theorem C9_matchstr_iff_prefix_pattern (cs : List Char) :
    (libwacom_matchstr_to_ints cs).isSome = true ↔ prefixMatchPattern cs := by
  constructor
  · intro h
    cases hsb : scanBus cs with
    | none => simp [libwacom_matchstr_to_ints, hsb] at h
    | some bsr1 =>
      obtain ⟨bs, r1⟩ := bsr1
      cases hec1 : expectCln r1 with
      | none => simp [libwacom_matchstr_to_ints, hsb, hec1] at h
      | some r2 =>
        cases hs1 : scanHex r2 with
        | none => simp [libwacom_matchstr_to_ints, hsb, hec1, hs1] at h
        | some vr3 =>
          obtain ⟨v, r3⟩ := vr3
          cases hec2 : expectCln r3 with
          | none => simp [libwacom_matchstr_to_ints, hsb, hec1, hs1, hec2] at h
          | some r4 =>
            cases hs2 : scanHex r4 with
            | none => simp [libwacom_matchstr_to_ints, hsb, hec1, hs1, hec2, hs2] at h
            | some pr5 =>
              obtain ⟨p, r5⟩ := pr5
              obtain ⟨hcs, hne, hlen, hnc⟩ := scanBus_sound hsb
              obtain ⟨h1, hr2, hh1⟩ := scanHex_decomp hs1
              obtain ⟨h2, hr4, hh2⟩ := scanHex_decomp hs2
              refine ⟨bs, h1, h2, r5, ?_, ⟨hne, hlen, hnc⟩,
                hexFieldB_intro hh1, hexFieldB_intro hh2⟩
              rw [hcs, expectCln_eq_some hec1, hr2, expectCln_eq_some hec2, hr4]
  · rintro ⟨b, h1, h2, rest, rfl, ⟨hne, hlen, hnc⟩, hf1, hf2⟩
    obtain ⟨v1, hs1⟩ := hexFieldB_elim hf1
    obtain ⟨v2, hs2⟩ := hexFieldB_elim hf2
    have hsb : scanBus (b ++ ':' :: (h1 ++ ':' :: (h2 ++ rest))) =
        some (b, ':' :: (h1 ++ ':' :: (h2 ++ rest))) :=
      scanBus_append _ hne hlen hnc
    have hsh1 : scanHex (h1 ++ ':' :: (h2 ++ rest)) = some (v1, ':' :: (h2 ++ rest)) :=
      scanHex_colon _ hs1
    obtain ⟨pr, hpr⟩ := Option.isSome_iff_exists.mp (scanHex_append_isSome rest hs2)
    obtain ⟨p, r5⟩ := pr
    simp [libwacom_matchstr_to_ints, hsb, expectCln_cons, hsh1, hpr]

/-- Inserting under key m makes lookup of m return the new device. -/
theorem hashLookup_insert_self (t : DeviceTable) (m : String) (d : WacomDevice) :
    hashLookupStr (hashInsertStr t m d) m = some d := by
  simp [hashLookupStr, hashInsertStr, List.find?_cons]

/-- find? is unaffected by a filter that keeps everything the search
predicate accepts. -/
theorem find_filter_of_imp {α : Type} (P Q : α → Bool) (t : List α)
    (h : ∀ a, P a = true → Q a = true) :
    List.find? P (t.filter Q) = List.find? P t := by
  induction t with
  | nil => rfl
  | cons q qs ih =>
    rw [List.filter_cons]
    by_cases hq : Q q = true
    · rw [if_pos hq, List.find?_cons, List.find?_cons]
      cases hp : P q
      · simpa [hp] using ih
      · simp [hp]
    · have hp : P q = false := by
        cases hpq : P q
        · rfl
        · exact absurd (h q hpq) hq
      rw [if_neg hq, List.find?_cons]
      simpa [hp] using ih

/-- Inserting under key m leaves lookups of other keys unchanged. -/
theorem hashLookup_insert_other (t : DeviceTable) {k m : String} (d : WacomDevice)
    (hkm : k ≠ m) :
    hashLookupStr (hashInsertStr t m d) k = hashLookupStr t k := by
  simp only [hashLookupStr, hashInsertStr, List.find?_cons]
  simp only [show (decide ((m, d).1 = k)) = false from by simp [Ne.symm hkm]]
  congr 1
  exact find_filter_of_imp _ _ t (by
    intro a ha
    simp only [decide_eq_true_eq] at ha
    simp only [ha, decide_eq_true_eq]
    simp [hkm])

/-- After the load loop, looking up a key finds the device from the LAST
processed file carrying that key (later inserts replace earlier ones); keys
no processed file carries fall through to the initial table. -/
theorem loadDevicesFrom_lookup {l : List (String × Option KeyFile)}
    {t0 t1 : DeviceTable} (h : loadDevicesFrom l t0 = .ok t1) (k : String) :
    hashLookupStr t1 k =
      match l.reverse.findSome? (parsedDeviceFor k) with
      | some d => some d
      | none => hashLookupStr t0 k := by
  induction l generalizing t0 with
  | nil =>
    simp only [loadDevicesFrom] at h
    injection h with h'
    subst h'
    simp
  | cons f fs ih =>
    simp only [loadDevicesFrom] at h
    cases hstep : loadDeviceStep t0 f with
    | aborted => simp [hstep] at h
    | ub => simp [hstep] at h
    | ok t' =>
      simp only [hstep] at h
      have ih' := ih h
      rw [List.reverse_cons, List.findSome?_append]
      cases hfs : fs.reverse.findSome? (parsedDeviceFor k) with
      | some d =>
        rw [hfs] at ih'
        simp only [Option.or]
        exact ih'
      | none =>
        rw [hfs] at ih'
        simp only [Option.or]
        cases hf : parsedDeviceFor k f with
        | some d =>
          simp only [List.findSome?_cons, hf]
          unfold parsedDeviceFor at hf
          cases hp : libwacom_parse_tablet_keyfile f.2 with
          | aborted => rw [hp] at hf; simp at hf
          | ub => rw [hp] at hf; simp at hf
          | ok od =>
            rw [hp] at hf
            cases od with
            | none => simp at hf
            | some d0 =>
              simp only at hf
              by_cases hmk : d0.matchStr = some k
              · rw [if_pos hmk] at hf
                injection hf with hf'
                unfold loadDeviceStep at hstep
                rw [hp] at hstep
                simp only [hmk] at hstep
                injection hstep with hstep'
                rw [ih', ← hstep', hashLookup_insert_self, hf']
              · rw [if_neg hmk] at hf
                exact absurd hf (by simp)
        | none =>
          simp only [List.findSome?_cons, hf]
          simp only [List.findSome?_nil]
          rw [ih']
          unfold parsedDeviceFor at hf
          unfold loadDeviceStep at hstep
          cases hp : libwacom_parse_tablet_keyfile f.2 with
          | aborted => rw [hp] at hstep; simp at hstep
          | ub => rw [hp] at hstep; simp at hstep
          | ok od =>
            rw [hp] at hf hstep
            cases od with
            | none =>
              simp only at hstep
              injection hstep with hstep'
              rw [← hstep']
            | some d0 =>
              simp only at hf hstep
              cases hmk : d0.matchStr with
              | none => rw [hmk] at hstep; simp at hstep
              | some m =>
                rw [hmk] at hstep hf
                have hkm : k ≠ m := by
                  intro he
                  rw [← he] at hf
                  simp at hf
                injection hstep with hstep'
                rw [← hstep']
                exact hashLookup_insert_other t0 d0 hkm

/-- Claim C1 (amended): since the load loop walks the alphabetically sorted
file list in REVERSE order, the surviving entry for a match key is the one
from the alphabetically FIRST eligible file carrying it. -/
theorem C1_device_table_winner (files : List (String × Option KeyFile))
    (tbl : DeviceTable) (h : libwacom_database_new files = .ok tbl) (k : String) :
    hashLookupStr tbl k = (sortedTabletFiles files).findSome? (parsedDeviceFor k) := by
  unfold libwacom_database_new at h
  have hl := loadDevicesFrom_lookup h k
  rw [List.reverse_reverse] at hl
  rw [hl]
  cases hfs : (sortedTabletFiles files).findSome? (parsedDeviceFor k) with
  | some d => simp
  | none => simp [hashLookupStr]

/-- bus_to_str hits its assertion exactly on the Unknown bus. -/
theorem bus_to_str_eq_none_iff (bus : WacomBusType) :
    bus_to_str bus = none ↔ bus = .unknown := by
  cases bus <;> simp [bus_to_str]

/-- parseMatchInfo on an absent DeviceMatch: sscanf(NULL), undefined
behaviour. -/
theorem parseMatchInfo_none : parseMatchInfo none = .ub := by
  simp [parseMatchInfo, GENERIC_DEVICE_MATCH]

/-- parseMatchInfo keeps the generic sentinel verbatim. -/
theorem parseMatchInfo_generic :
    parseMatchInfo (some GENERIC_DEVICE_MATCH) =
      .ok (some GENERIC_DEVICE_MATCH, 0, 0, .unknown) := by
  simp [parseMatchInfo]

/-- parseMatchInfo on a non-generic match string the scanner rejects: the
match key stays NULL. -/
theorem parseMatchInfo_scan_fail {m : String} (hg : m ≠ GENERIC_DEVICE_MATCH)
    (hmi : libwacom_matchstr_to_ints m.data = none) :
    parseMatchInfo (some m) = .ok (none, 0, 0, .unknown) := by
  simp [parseMatchInfo, hg, hmi]

/-- parseMatchInfo on a non-generic match string the scanner accepts:
formats the canonical key, or aborts inside bus_to_str on an Unknown bus. -/
theorem parseMatchInfo_scan_ok {m : String} {v p : Nat} {bus : WacomBusType}
    (hg : m ≠ GENERIC_DEVICE_MATCH)
    (hmi : libwacom_matchstr_to_ints m.data = some (v, p, bus)) :
    parseMatchInfo (some m) =
      match bus_to_str bus with
      | none => .aborted
      | some s => .ok (some (formatMatch s v p), v, p, bus) := by
  simp [parseMatchInfo, hg, hmi]

/-- The DeviceMatch block aborts exactly when a non-generic match string
scans successfully but its bus token maps to WBUSTYPE_UNKNOWN. -/
theorem parseMatchInfo_aborted_iff (dm : Option String) :
    parseMatchInfo dm = .aborted ↔
      ∃ m, dm = some m ∧ m ≠ GENERIC_DEVICE_MATCH ∧
        ∃ v p, libwacom_matchstr_to_ints m.data = some (v, p, .unknown) := by
  cases dm with
  | none =>
    rw [parseMatchInfo_none]
    simp
  | some m =>
    by_cases hg : m = GENERIC_DEVICE_MATCH
    · subst hg
      rw [parseMatchInfo_generic]
      constructor
      · intro h
        exact absurd h (by simp)
      · rintro ⟨m', hm', hne, -⟩
        injection hm' with hme
        exact absurd hme.symm hne
    · cases hmi : libwacom_matchstr_to_ints m.data with
      | none =>
        rw [parseMatchInfo_scan_fail hg hmi]
        constructor
        · intro h
          exact absurd h (by simp)
        · rintro ⟨m', hm', -, v, p, hvp⟩
          injection hm' with hme
          rw [← hme, hmi] at hvp
          exact absurd hvp (by simp)
      | some vpb =>
        obtain ⟨v, p, bus⟩ := vpb
        rw [parseMatchInfo_scan_ok hg hmi]
        cases hbs : bus_to_str bus with
        | none =>
          have hbu : bus = .unknown := (bus_to_str_eq_none_iff bus).mp hbs
          simp only [hbs]
          constructor
          · intro _
            exact ⟨m, rfl, hg, v, p, by rw [hmi, hbu]⟩
          · intro _
            trivial
        | some s =>
          simp only [hbs]
          constructor
          · intro h
            exact absurd h (by simp)
          · rintro ⟨m', hm', -, v', p', hvp⟩
            injection hm' with hme
            rw [← hme, hmi] at hvp
            injection hvp with hvp'
            have hbus : bus = WacomBusType.unknown := congrArg (fun q => q.2.2) hvp'
            rw [hbus] at hbs
            exact absurd hbs (by simp [bus_to_str])

/-- Claim C3 (amended): the bus_to_str assertion IS reachable from the tablet
parser: it fires exactly when a file provides a non-generic DeviceMatch that
scans successfully but carries a bus token outside {usb, serial, bluetooth}
(e.g. "foo:1:2"); on all other file content it is not reached. -/
theorem C3_parse_aborts_iff_unknown_bus (file : Option KeyFile) :
    libwacom_parse_tablet_keyfile file = .aborted ↔
      ∃ kf m, file = some kf ∧ kf.getString "Device" "DeviceMatch" = some m ∧
        m ≠ GENERIC_DEVICE_MATCH ∧
        ∃ v p, libwacom_matchstr_to_ints m.data = some (v, p, .unknown) := by
  cases file with
  | none =>
    simp only [libwacom_parse_tablet_keyfile]
    constructor
    · intro h
      exact absurd h (by simp)
    · rintro ⟨kf, m, hkf, -⟩
      exact absurd hkf (by simp)
  | some kf =>
    have hstep : libwacom_parse_tablet_keyfile (some kf) = .aborted ↔
        parseMatchInfo (kf.getString "Device" "DeviceMatch") = .aborted := by
      simp only [libwacom_parse_tablet_keyfile]
      cases hpm : parseMatchInfo (kf.getString "Device" "DeviceMatch") with
      | aborted => simp
      | ub => simp
      | ok q =>
        obtain ⟨mk, v, p, bus⟩ := q
        simp
    rw [hstep, parseMatchInfo_aborted_iff]
    constructor
    · rintro ⟨m, hm, hne, hvp⟩
      exact ⟨kf, m, rfl, hm, hne, hvp⟩
    · rintro ⟨kf', m, hkf, hm, hne, hvp⟩
      injection hkf with hkf'
      rw [← hkf'] at hm
      exact ⟨m, hm, hne, hvp⟩

/-- A parsed device's match key, vendor id, product id and bus are exactly
the outputs of the DeviceMatch block. -/
theorem parse_ok_matchinfo {kf : KeyFile} {d : WacomDevice}
    (h : libwacom_parse_tablet_keyfile (some kf) = .ok (some d)) :
    parseMatchInfo (kf.getString "Device" "DeviceMatch") =
      .ok (d.matchStr, d.vendor_id, d.product_id, d.bus) := by
  cases hpm : parseMatchInfo (kf.getString "Device" "DeviceMatch") with
  | aborted => simp [libwacom_parse_tablet_keyfile, hpm] at h
  | ub => simp [libwacom_parse_tablet_keyfile, hpm] at h
  | ok q =>
    obtain ⟨mk, v, p, bus⟩ := q
    simp only [libwacom_parse_tablet_keyfile, hpm, LO.ok.injEq, Option.some.injEq] at h
    subst h
    rfl

/-- A non-generic stored match key comes from the canonical formatter applied
to the parsed bus, vendor id and product id. -/
theorem parseMatchInfo_ok_nongeneric {dm : Option String} {mk : String}
    {v p : Nat} {bus : WacomBusType}
    (h : parseMatchInfo dm = .ok (some mk, v, p, bus))
    (hg : mk ≠ GENERIC_DEVICE_MATCH) :
    ∃ s, bus_to_str bus = some s ∧ mk = formatMatch s v p := by
  cases dm with
  | none =>
    rw [parseMatchInfo_none] at h
    exact absurd h (by simp)
  | some m =>
    by_cases hgm : m = GENERIC_DEVICE_MATCH
    · subst hgm
      rw [parseMatchInfo_generic] at h
      simp only [LO.ok.injEq, Prod.mk.injEq, Option.some.injEq] at h
      exact absurd h.1 (fun he => hg he.symm)
    · cases hmi : libwacom_matchstr_to_ints m.data with
      | none =>
        rw [parseMatchInfo_scan_fail hgm hmi] at h
        simp at h
      | some vpb =>
        obtain ⟨v', p', bus'⟩ := vpb
        rw [parseMatchInfo_scan_ok hgm hmi] at h
        cases hbs : bus_to_str bus' with
        | none =>
          rw [hbs] at h
          exact absurd h (by simp)
        | some s =>
          rw [hbs] at h
          simp only [LO.ok.injEq, Prod.mk.injEq, Option.some.injEq] at h
          obtain ⟨hmk, hv, hp, hbus⟩ := h
          refine ⟨s, ?_, ?_⟩
          · rw [← hbus]
            exact hbs
          · rw [← hmk, ← hv, ← hp]

/-- Claim C1 counterexample: a.tablet and b.tablet both carry DeviceMatch
"usb:1:2" (canonical key "usb:0x1:0x2"); the surviving table entry is
a.tablet's device (Product "A"), not the alphabetically later b.tablet's
(Product "B"), because the load loop walks the sorted array backwards. -/
theorem C1_counterexample :
    (match libwacom_database_new dirAB with
      | .ok t => (hashLookupStr t "usb:0x1:0x2").map WacomDevice.product
      | _ => none) = some (some "A") ∧ ("A" : String) ≠ "B" := by
  decide

/-- Claim C1 witness: on a single-file directory the surviving entry is the
one the amended statement picks out. -/
theorem C1_witness :
    hashLookupStr [("usb:0x1:0x2", devA)] "usb:0x1:0x2" =
      (sortedTabletFiles dirA).findSome? (parsedDeviceFor "usb:0x1:0x2") :=
  C1_device_table_winner dirA [("usb:0x1:0x2", devA)] (by decide) "usb:0x1:0x2"

/-- Claim C2: a descriptor file whose DeviceMatch ("bogus") defeats the scan
pattern still produces a device (parse does not fail), that device's match
key is NULL, and the load loop then reaches g_hash_table_insert with the
NULL key g_strdup(NULL) — undefined behaviour under g_str_hash — instead of
skipping the insertion as the claim states. -/
theorem C2_null_match_key_not_skipped :
    libwacom_parse_tablet_keyfile (some kfTabBogus) ≠ .ok none ∧
    (match libwacom_parse_tablet_keyfile (some kfTabBogus) with
      | .ok (some d) => d.matchStr
      | _ => some "") = none ∧
    libwacom_database_new dirBogus = .ub := by
  decide

/-- Claim C3 counterexample: the file content DeviceMatch "foo:1:2" drives
parse_tablet_descriptor into the g_assert_not_reached branch of bus_to_str
("foo" scans fine but maps to WBUSTYPE_UNKNOWN). -/
theorem C3_counterexample :
    libwacom_parse_tablet_keyfile (some kfTabFoo) = LO.aborted := by
  decide

/-- Claim C3 witness: the amended characterization applied to the concrete
"foo:1:2" fixture. -/
theorem C3_witness :
    libwacom_parse_tablet_keyfile (some kfTabFoo) = LO.aborted :=
  (C3_parse_aborts_iff_unknown_bus (some kfTabFoo)).mpr
    ⟨kfTabFoo, "foo:1:2", rfl, by decide, by decide, 1, 2, by decide⟩

/-- Claim C4 counterexample: resolve_by_usb_id on a NULL database fails, but
the error finally reported is UnknownModel, not InvalidDb — the not-found
path overwrites the InvalidDb set by the inner lookup. -/
theorem C4_counterexample :
    libwacom_new_from_usbid none 1386 129 none =
      .ok (none, some (WacomErrorCode.unknownModel, none)) ∧
    WacomErrorCode.unknownModel ≠ WacomErrorCode.invalidDb := by
  decide

/-- Claim C4 (amended): with a NULL database, the inner libwacom_new sets
InvalidDb, but libwacom_new_from_usbid then overwrites the error with
UnknownModel on its not-found path; the caller sees UnknownModel. -/
theorem C4_null_db_error_overwritten (vendor_id product_id : Nat) (e : ErrSt) :
    libwacom_new_from_usbid none vendor_id product_id e =
      .ok (none, some (WacomErrorCode.unknownModel, none)) ∧
    libwacom_new none vendor_id product_id .usb e =
      .ok (none, some (WacomErrorCode.invalidDb, some "db is NULL")) := by
  constructor <;> rfl

/-- Claim C5: for every successfully parsed device whose stored match key is
non-generic, the key is exactly the canonical formatter applied to the
parsed (bus, vendor id, product id) triple. -/
theorem C5_matchkey_roundtrip (file : Option KeyFile) (d : WacomDevice)
    (h : libwacom_parse_tablet_keyfile file = .ok (some d))
    (mk : String) (hmk : d.matchStr = some mk)
    (hg : mk ≠ GENERIC_DEVICE_MATCH) :
    ∃ s, bus_to_str d.bus = some s ∧ mk = formatMatch s d.vendor_id d.product_id := by
  cases file with
  | none => simp [libwacom_parse_tablet_keyfile] at h
  | some kf =>
    have hpm := parse_ok_matchinfo h
    rw [hmk] at hpm
    exact parseMatchInfo_ok_nongeneric hpm hg

/-- Claim C5 witness: the kfTabA fixture round-trips its stored key. -/
theorem C5_witness :
    ∃ s, bus_to_str devA.bus = some s ∧
      "usb:0x1:0x2" = formatMatch s devA.vendor_id devA.product_id :=
  C5_matchkey_roundtrip (some kfTabA) devA (by decide) "usb:0x1:0x2"
    (by decide) (by decide)

/-- Claim C6: bus_to_str inverts bus_from_str on "usb" and "bluetooth", and
bus_to_str applied to the Serial bus value yields "bluetooth", not
"serial". -/
theorem C6_bus_str_roundtrip :
    bus_to_str (bus_from_str "usb") = some "usb" ∧
    bus_to_str (bus_from_str "bluetooth") = some "bluetooth" ∧
    bus_to_str WacomBusType.serial = some "bluetooth" ∧
    bus_to_str WacomBusType.serial ≠ some "serial" := by
  decide

/-- Claim C7: any stylus-catalog group with IsEraser true yields a record
with has_eraser = false and num_buttons = 0, regardless of the HasEraser or
Buttons values present in the file. -/
theorem C7_eraser_invariant (kf : KeyFile) (g : String) (s : WacomStylus)
    (hise : kf.getBoolean g "IsEraser" = true)
    (hp : libwacom_parse_stylus_group kf g = some s) :
    s.has_eraser = false ∧ s.num_buttons = 0 := by
  unfold libwacom_parse_stylus_group at hp
  by_cases hid : strtol16 g.data = 0
  · rw [if_pos hid] at hp
    exact absurd hp (by simp)
  · rw [if_neg hid] at hp
    simp only [hise, ite_true] at hp
    injection hp with hp'
    rw [← hp']
    exact ⟨rfl, rfl⟩

/-- Claim C7 witness: the kfStylusEraser fixture sets IsEraser, HasEraser
and Buttons=5, yet the built record has has_eraser false and 0 buttons. -/
theorem C7_witness : stylusEr.has_eraser = false ∧ stylusEr.num_buttons = 0 :=
  C7_eraser_invariant kfStylusEraser "1a" stylusEr (by decide) (by decide)

/-- Claim C8: the stylus button-count accessor returns 2 for the stored -1
sentinel and the stored value otherwise; it never returns -1. -/
theorem C8_stylus_button_accessor (stylus : WacomStylus) :
    (stylus.num_buttons = -1 → libwacom_stylus_get_num_buttons stylus = 2) ∧
    (stylus.num_buttons ≠ -1 →
      libwacom_stylus_get_num_buttons stylus = stylus.num_buttons) ∧
    libwacom_stylus_get_num_buttons stylus ≠ -1 := by
  unfold libwacom_stylus_get_num_buttons
  by_cases h : stylus.num_buttons = -1
  · rw [if_pos h]
    exact ⟨fun _ => rfl, fun hn => absurd h hn, by decide⟩
  · rw [if_neg h]
    exact ⟨fun hc => absurd hc h, fun _ => rfl, h⟩

/-- Claim C8 witness: the accessor applied to the sentinel fixture and to a
defined-count fixture. -/
theorem C8_witness :
    libwacom_stylus_get_num_buttons stylusSentinel = 2 ∧
    libwacom_stylus_get_num_buttons stylusThreeButtons = 3 :=
  ⟨(C8_stylus_button_accessor stylusSentinel).1 (by decide),
   (C8_stylus_button_accessor stylusThreeButtons).2.1 (by decide)⟩

/-- Claim C9 counterexample: "usb:1:2x" does not match the pattern fully
(trailing 'x'), yet the scanner returns success — trailing input after the
third conversion is ignored. -/
theorem C9_counterexample :
    (libwacom_matchstr_to_ints ['u', 's', 'b', ':', '1', ':', '2', 'x']).isSome = true ∧
    fullMatchPattern ['u', 's', 'b', ':', '1', ':', '2', 'x'] = false := by
  decide

/-- Claim C9 witness: the canonical "usb:56a:81" key satisfies both sides of
the amended equivalence. -/
theorem C9_witness :
    (libwacom_matchstr_to_ints
      ['u', 's', 'b', ':', '5', '6', 'a', ':', '8', '1']).isSome = true :=
  (C9_matchstr_iff_prefix_pattern _).mpr
    ⟨['u', 's', 'b'], ['5', '6', 'a'], ['8', '1'], [], by decide,
      ⟨by decide, by decide, by decide⟩, by decide, by decide⟩

/-- Claim C10: resolve_by_product_name with a NULL name on a non-null
database raises no null-argument error: g_strcmp0 treats two NULLs as equal,
so the first device in iteration order whose product is unset is returned as
a copy, and UnknownModel is reported only when every device has a product. -/
theorem C10_null_name_matches_null_product (t : DeviceTable) (e : ErrSt) :
    (∀ d, List.find? (fun d => d.product = none) (tableValues t) = some d →
        libwacom_new_from_name (some t) none e = (some (libwacom_copy d), e)) ∧
    (List.find? (fun d => d.product = none) (tableValues t) = none →
        libwacom_new_from_name (some t) none e =
          (none, libwacom_error_set e .unknownModel none)) := by
  constructor
  · intro d hf
    simp only [libwacom_new_from_name, hf]
  · intro hf
    simp only [libwacom_new_from_name, hf]

/-- Claim C10 witness: on a table whose second entry has an unset product,
the resolver returns a copy of that entry and leaves the error untouched. -/
theorem C10_witness :
    libwacom_new_from_name (some tblC10) none none =
      (some (libwacom_copy devNoProduct), none) :=
  (C10_null_name_matches_null_product tblC10 none).1 devNoProduct (by decide)
